import Mathlib

/-!
Verification development for the content-queue source orchestration engine.

Shallow embedding of:
* `lib/accounts/twitter.js` — `TwitterAccount.getMediaAndContent` (markdown
  image extraction for tweets);
* `lib/sources/issues.js` — `IssuesSource.handleCard`, `addIssue`,
  `onClosedIssue`;
* `lib/sources/manager.js` — `SourceManager` constructor and its config
  validation (`checkSourceConfig`, `missingConfig`);
* the expiring single-flight cache (`lib/data-store.js`) and the scheduled
  publish handler's quota (`lib/sources/publish.js`), modelled from the spec
  where noted, as their implementations are not part of the sources at hand.

Strings from the JavaScript side are embedded as `List Char`; JavaScript
`undefined`-able values as `Option`; throwing operations as `Except`.
-/

namespace ContentQueue

/-! ### Twitter account: `getMediaAndContent`

The JS code matches the regular expression `!\[[^\]]*\]\([^)]+\)` (a GitHub
flavoured markdown image reference) over the tweet content.  Because each
quantified class excludes exactly the delimiter that follows it, the regex is
deterministic: `[^\]]*` consumes the maximal run of non-`]` characters and the
match continues only if a `]` follows, and similarly `[^)]+` consumes the
maximal nonempty run of non-`)` characters followed by `)`.  `takeU stop`
embeds "maximal run of characters different from `stop`, then `stop`". -/

/-- Split `l` as `pre ++ stop :: post` where `pre` holds no `stop`;
`none` when `stop` does not occur. -/
def takeU (stop : Char) : List Char → Option (List Char × List Char)
  | [] => none
  | c :: rest =>
    if c = stop then some ([], rest)
    else (takeU stop rest).map (fun p => (c :: p.1, p.2))

/-- Try to match `!\[[^\]]*\]\(([^)]+)\)` at the head of the list; on success
return the captured URL and the remainder after the match. -/
def tryMatch : List Char → Option (List Char × List Char)
  | c1 :: c2 :: rest =>
    if c1 = '!' then
      if c2 = '[' then
        match takeU ']' rest with
        | some (_, r1) =>
          match r1 with
          | c3 :: r2 =>
            if c3 = '(' then
              match takeU ')' r2 with
              | some (url, r3) => if url.isEmpty then none else some (url, r3)
              | none => none
            else none
          | [] => none
        | none => none
      else none
    else none
  | _ => none

theorem takeU_length {stop : Char} :
    ∀ {l pre post : List Char}, takeU stop l = some (pre, post) →
      post.length < l.length := by
  intro l
  induction l with
  | nil => intro pre post h; simp [takeU] at h
  | cons c rest ih =>
    intro pre post h
    simp only [takeU] at h
    split at h
    · simp only [Option.some.injEq, Prod.mk.injEq] at h
      obtain ⟨h1, h2⟩ := h
      subst h2
      simp only [List.length_cons]
      omega
    · cases htu : takeU stop rest with
      | none => rw [htu] at h; simp at h
      | some p =>
        rw [htu] at h
        simp only [Option.map_some', Option.some.injEq, Prod.mk.injEq] at h
        obtain ⟨h1, h2⟩ := h
        subst h2
        have := ih htu
        simp only [List.length_cons]
        omega

theorem tryMatch_length :
    ∀ {l url rest : List Char}, tryMatch l = some (url, rest) →
      rest.length < l.length := by
  intro l url rest h
  match l with
  | [] => simp [tryMatch] at h
  | [c] => simp [tryMatch] at h
  | c1 :: c2 :: t =>
    simp only [tryMatch] at h
    split at h
    · split at h
      · split at h
        case _ pre r1 htake =>
          have hr1 := takeU_length htake
          split at h
          case _ c3 r2 =>
            split at h
            · split at h
              case _ url2 r3 htake2 =>
                have hr3 := takeU_length htake2
                split at h
                · simp at h
                · simp only [Option.some.injEq, Prod.mk.injEq] at h
                  obtain ⟨h4, h5⟩ := h
                  subst h5
                  simp only [List.length_cons] at hr1 ⊢
                  omega
              case _ => simp at h
            · simp at h
          case _ => simp at h
        case _ => simp at h
      · simp at h
    · simp at h

/-- Left-to-right global replacement of image references: returns the captured
URLs in order of appearance and the content with the matches removed, embedding
`tweet.replace(/!\[[^\]]*\]\(([^)]+)\)/g, ...)` together with the `media`
array the replacement callback pushes to. -/
def scanRefs : List Char → List (List Char) × List Char
  | [] => ([], [])
  | c :: rest =>
    match h : tryMatch (c :: rest) with
    | some (url, after) =>
      let p := scanRefs after
      (url :: p.1, p.2)
    | none =>
      let p := scanRefs rest
      (p.1, c :: p.2)
termination_by l => l.length
decreasing_by
  · exact tryMatch_length h
  · simp

/-- Whether the regex matches anywhere, embedding
`tweet.search(/!\[[^\]]*\]\([^)]+\)/) !== -1`. -/
def hasRef : List Char → Bool
  | [] => false
  | c :: rest => (tryMatch (c :: rest)).isSome || hasRef rest

/-- JavaScript `String.prototype.trim` whitespace (the ASCII part relevant to
the embedded content). -/
def jsWhitespace (c : Char) : Bool :=
  c = ' ' || c = '\t' || c = '\n' || c = '\r' || c = '\x0b' || c = '\x0c'

/-- Embeds `String.prototype.trim`: strip leading and trailing whitespace. -/
def jsTrim (l : List Char) : List Char :=
  ((l.dropWhile jsWhitespace).reverse.dropWhile jsWhitespace).reverse

/-- Number of markdown image references in the content: the number of
(non-overlapping, leftmost) matches of the image regex. -/
def countRefs (l : List Char) : Nat := (scanRefs l).1.length

/-- Embeds `TwitterAccount.getMediaAndContent` (`lib/accounts/twitter.js`):
if the image regex matches, globally replace it collecting the URLs, throw
when more than 4 images were collected, else return the trimmed residual
content and the URLs; with no match, return the trimmed input and no media. -/
def getMediaAndContent (tweet : List Char) :
    Except String (List Char × List (List Char)) :=
  if hasRef tweet then
    let p := scanRefs tweet
    if p.1.length > 4 then
      .error "Can not upload more than 4 images per tweet"
    else
      .ok (jsTrim p.2, p.1)
  else
    .ok (jsTrim tweet, [])

theorem scanRefs_of_hasRef_false :
    ∀ {l : List Char}, hasRef l = false → scanRefs l = ([], l) := by
  intro l
  induction l with
  | nil => intro h; simp [scanRefs]
  | cons c rest ih =>
    intro h
    rw [hasRef] at h
    cases htm : tryMatch (c :: rest) with
    | some p => rw [htm] at h; simp at h
    | none =>
      rw [htm] at h
      simp only [Option.isSome_none, Bool.false_or] at h
      rw [scanRefs]
      split
      · simp_all
      · rw [ih h]

theorem scanRefs_ne_of_hasRef_true :
    ∀ {l : List Char}, hasRef l = true → (scanRefs l).1 ≠ [] := by
  intro l
  induction l with
  | nil => intro h; simp [hasRef] at h
  | cons c rest ih =>
    intro h
    rw [hasRef] at h
    rw [scanRefs]
    cases htm : tryMatch (c :: rest) with
    | some p =>
      split
      · simp
      · simp_all
    | none =>
      rw [htm] at h
      simp only [Option.isSome_none, Bool.false_or] at h
      split
      · simp_all
      · simpa using ih h

/-! ### Issue synchronization handler (`lib/sources/issues.js`)

Board collaborators are embedded at their interface boundary: a `Column`
carries its id, its membership test `hasIssue`, and the fallible card
operations `getCard` / `removeCard` (JavaScript promise rejections become
`Except` errors).  `Object.values(board.columns)` iteration order is the
order of the `columns` list. -/

/-- A card, with the outcome `card.reportError(...)` would have on it. -/
structure Card where
  cardId : Nat
  reportOutcome : Except String Unit
deriving Repr

/-- A board column at its interface boundary. -/
structure Column where
  id : Nat
  hasIssue : Nat → Bool
  getCard : Nat → Except String (Option Card)
  removeCard : Card → Except String Unit

/-- An external tracker item. -/
structure Issue where
  number : Nat
  issueId : Nat
deriving Repr, DecidableEq

/-- The board collaborator as used by `IssuesSource`. -/
structure Board where
  columns : List Column
  columnIds : List (String × Nat)
  addCard : Issue → Column → Card

/-- The state an `IssuesSource` instance closes over: its board, its
`config.columns` role-to-name mapping, and the managed columns resolved by
the `_getManagedColumns` callback. -/
structure IssuesSrc where
  board : Board
  configColumns : List (String × String)
  managed : List Column

/-- Association-list lookup (JavaScript property access on a plain object). -/
def alookup {α : Type} (key : String) : List (String × α) → Option α
  | [] => none
  | (k, v) :: rest => if k = key then some v else alookup key rest

/-- Embeds `Source.getColumn` (`lib/sources/source.js`):
`columns[columnIds[this._config.columns[columnKey]]]`. -/
def getColumn (src : IssuesSrc) (columnKey : String) : Option Column :=
  (alookup columnKey src.configColumns).bind fun name =>
    (alookup name src.board.columnIds).bind fun cid =>
      src.board.columns.find? (fun c => c.id = cid)

/-- Embeds `IssuesSource.handleCard`: first board column that is not one of the
managed columns and whose membership test reports the issue present. -/
def handleCard (src : IssuesSrc) (issue : Issue) : Option Column :=
  src.board.columns.find? fun column =>
    src.managed.all (fun c => c.id ≠ column.id) && column.hasIssue issue.number

/-- Embeds `IssuesSource.addIssue`: re-add to the first column already holding the
issue; otherwise add to the configured `target` column unless the issue is
closed, in which case nothing is added. -/
def addIssue (src : IssuesSrc) (issue : Issue) (isClosed : Bool) :
    Option Card :=
  match src.board.columns.find? (fun column => column.hasIssue issue.number) with
  | some column => some (src.board.addCard issue column)
  | none =>
    if isClosed then none
    else (getColumn src "target").map (src.board.addCard issue)

/-- Observable outcome of `IssuesSource.onClosedIssue`; the function always
produces one of these, never an uncaught exception. -/
inductive ClosedOutcome where
  | notInColumn : ClosedOutcome
  | noCard : ClosedOutcome
  | removed : Card → ClosedOutcome
  | removalReported : Card → String → ClosedOutcome
  | loggedError : String → ClosedOutcome
deriving Repr

/-- Embeds `IssuesSource.onClosedIssue`: look the issue's column up via
`handleCard`, fetch the card, attempt removal inside a `try` whose `catch`
reports the failure on the card; the outer `try` logs any remaining
exception (`console.error`) instead of propagating it. -/
def onClosedIssue (src : IssuesSrc) (issue : Issue) : ClosedOutcome :=
  match handleCard src issue with
  | none => .notInColumn
  | some column =>
    match column.getCard issue.issueId with
    | .error e => .loggedError e
    | .ok none => .noCard
    | .ok (some card) =>
      match column.removeCard card with
      | .ok _ => .removed card
      | .error e =>
        match card.reportOutcome with
        | .ok _ => .removalReported card e
        | .error e2 => .loggedError e2

theorem find?_and_filter {α : Type} (p q : α → Bool) (l : List α) :
    l.find? (fun a => p a && q a) = (l.filter p).find? q := by
  induction l with
  | nil => simp
  | cons a rest ih =>
    by_cases hp : p a
    · by_cases hq : q a
      · simp [List.find?, List.filter, hp, hq]
      · simp only [List.find?, List.filter, hp, hq, Bool.and_false,
          if_pos rfl]
        simpa [List.find?, hq] using ih
    · simp only [List.find?, List.filter, hp, Bool.false_and]
      simpa using ih

theorem find?_eq_head_of_filter {α : Type} (p : α → Bool) (l : List α)
    (x : α) (h : l.filter p = [x]) : l.find? p = some x := by
  induction l with
  | nil => simp at h
  | cons a rest ih =>
    by_cases hp : p a
    · rw [List.filter_cons_of_pos hp] at h
      injection h with h1 h2
      subst h1
      simp [List.find?, hp]
    · rw [List.filter_cons_of_neg hp] at h
      simp only [List.find?, hp]
      exact ih h

/-! ### Source registry / manager (`lib/sources/manager.js`)

A source entry's configuration object is embedded as the set of top-level
keys present plus, when the `columns` key is present, its role-to-name
mapping.  The JavaScript `in` operator applied to an `undefined` columns
object throws a `TypeError`; that path is embedded as the `typeErr`
outcome. -/

/-- Static declaration of one handler type (`requiredConfig`,
`requiredColumns`, `managedColumns` getters). -/
structure SourceFactory where
  requiredConfig : List String
  requiredColumns : List String
  managedColumns : List String
deriving Repr, DecidableEq

/-- One configured source entry: its `type`, its `columns` mapping when the
key is present, and the other top-level keys present on the object. -/
structure SourceEntry where
  type : String
  columns : Option (List (String × String))
  extraKeys : List String
deriving Repr, DecidableEq

/-- JavaScript `key in sourceEntry` on the entry object itself. -/
def hasKey (s : SourceEntry) (key : String) : Bool :=
  if key = "columns" then s.columns.isSome else s.extraKeys.contains key

/-- Embeds `SourceManager.NOT_SOURCES`. -/
def NOT_SOURCES : List String := ["manager", "source"]

/-- Embeds `SourceManager.checkConfigArray` against the entry object:
`!required.length || required.every((c) => c in config)`. -/
def checkConfigKeys (required : List String) (s : SourceEntry) : Bool :=
  required.isEmpty || required.all (hasKey s)

/-- Embeds `SourceManager.checkConfigArray` against the entry's `columns` object;
`c in undefined` throws a `TypeError`, embedded as `Except.error`. -/
def checkColumnsArray (required : List String)
    (columns : Option (List (String × String))) : Except Unit Bool :=
  if required.isEmpty then .ok true
  else
    match columns with
    | none => .error ()
    | some cs => .ok (required.all (fun c => (cs.map Prod.fst).contains c))

/-- Embeds `SourceManager.checkSourceConfig`: the `&&` of the two checks, with the
columns check short-circuited away when the config-keys check fails. -/
def checkSourceConfig (F : SourceFactory) (s : SourceEntry) :
    Except Unit Bool :=
  if checkConfigKeys F.requiredConfig s then
    checkColumnsArray F.requiredColumns s.columns
  else .ok false

/-- Embeds `SourceManager.missingConfig`: required keys absent from the entry. -/
def missingConfig (required : List String) (s : SourceEntry) : List String :=
  required.filter (fun c => ¬ hasKey s c)

/-- Embeds `missingConfig` against a present `columns` mapping. -/
def missingColumnRoles (required : List String)
    (cs : List (String × String)) : List String :=
  required.filter (fun c => ¬ (cs.map Prod.fst).contains c)

/-- Errors the constructor can throw. `missingKeys`/`missingCols` are the
two `SourceLoadError`s (each carries the source type its message names);
`notASource` is the denylist `SourceLoadError`; `moduleErr` stands for the
`require()` failure on an unknown type; `typeErr` is the JavaScript
`TypeError` from `c in undefined` / `undefined[c]`. -/
inductive SMError where
  | notASource : SMError
  | moduleErr : String → SMError
  | typeErr : SMError
  | missingKeys : String → List String → SMError
  | missingCols : String → List String → SMError
deriving Repr, DecidableEq

/-- Mutable manager state built up by the constructor loop: the instantiated
sources (modelled by their config entries, in order) and the managed-column
name set (`Set` insertion order, deduplicated). -/
structure ManagerState where
  sources : List SourceEntry
  managedColumns : List (Option String)
deriving Repr, DecidableEq

/-- Embeds `Set.prototype.add`. -/
def setAdd {α : Type} [DecidableEq α] (l : List α) (x : α) : List α :=
  if x ∈ l then l else l ++ [x]

/-- The constructor's body for one source entry `s`: resolve the factory,
validate, then either instantiate and claim managed columns, or compute the
missing keys/roles and throw the corresponding `SourceLoadError`. -/
def processSource (registry : String → Option SourceFactory)
    (st : ManagerState) (s : SourceEntry) : Except SMError ManagerState :=
  if s.type ∈ NOT_SOURCES then .error .notASource
  else
    match registry s.type with
    | none => .error (.moduleErr s.type)
    | some F =>
      match checkSourceConfig F s with
      | .error _ => .error .typeErr
      | .ok true =>
        let st1 : ManagerState :=
          { st with sources := st.sources ++ [s] }
        if F.managedColumns.isEmpty then .ok st1
        else
          match s.columns with
          | none => .error .typeErr
          | some cs =>
            .ok { st1 with
              managedColumns := F.managedColumns.foldl
                (fun acc c => setAdd acc (alookup c cs)) st1.managedColumns }
      | .ok false =>
        if (missingConfig F.requiredConfig s).isEmpty then
          match s.columns with
          | none =>
            if F.requiredColumns.isEmpty then .error (.missingCols s.type [])
            else .error .typeErr
          | some cs =>
            .error (.missingCols s.type (missingColumnRoles F.requiredColumns cs))
        else .error (.missingKeys s.type (missingConfig F.requiredConfig s))

/-- The constructor's loop over `config.sources`.  An error carries the
manager state at the moment of the throw: sources instantiated from earlier
valid entries have already been added and are not rolled back. -/
def runSources (registry : String → Option SourceFactory) :
    ManagerState → List SourceEntry → Except (SMError × ManagerState) ManagerState
  | st, [] => .ok st
  | st, s :: rest =>
    match processSource registry st s with
    | .ok st2 => runSources registry st2 rest
    | .error e => .error (e, st)

/-- Embeds `new SourceManager(config, ...)` restricted to its validating loop. -/
def sourceManagerCtor (registry : String → Option SourceFactory)
    (entries : List SourceEntry) :
    Except (SMError × ManagerState) ManagerState :=
  runSources registry ⟨[], []⟩ entries

/-! ### Expiring single-flight cache

The `DataStore` implementation (`lib/data-store.js`) is exercised by
`test/data-store.js` but is not among the sources at hand, so it is modelled
from the spec (§3 CacheEntry, §4.1) as a state machine: `getData` is one
cooperative step, fetch completion (`resolveFetch` / `rejectFetch`) another.
Futures are identified by the index of the fetch invocation that created
them; callers holding the same future id resolve to the same value. -/

/-- Modelled from the spec: the `CacheEntry` state owned by one `DataStore`
instance of `lib/data-store.js` (implementation absent from the sources) —
`{ data, lastUpdateTimestamp, pendingFetch }` plus the configured
`cacheTime` and an instrumentation counter of fetch invocations. -/
structure CacheState (T : Type) where
  cacheTime : Int
  data : Option T
  lastUpdateTimestamp : Int
  pendingFetch : Option Nat
  fetchCount : Nat
deriving Repr

/-- Modelled from the spec: a fresh cache — no data ever fetched, no fetch
in flight, default timestamp makes it "effectively always expired". -/
def initCache (T : Type) (cacheTime : Int) : CacheState T :=
  ⟨cacheTime, none, 0, none, 0⟩

/-- Modelled from the spec: `cacheExpired` — true if no fetch has ever
completed, or if `now - lastUpdateTimestamp >= cacheTime`. -/
def cacheExpired {T : Type} (now : Int) (st : CacheState T) : Bool :=
  st.data.isNone || (st.cacheTime ≤ now - st.lastUpdateTimestamp)

/-- What one `getData()` call hands its caller: a pending future (new or
already in flight) identified by fetch-invocation index, or the cached
value immediately. -/
inductive GetDataResult (T : Type) where
  | pending : Nat → GetDataResult T
  | value : Option T → GetDataResult T
deriving Repr

/-- Modelled from the spec: `getData()` — return the in-flight future if one
exists; else return the cached value when not expired; else invoke
`fetch(currentData)` (counted) and store the new future as in flight. -/
def getData {T : Type} (now : Int) (st : CacheState T) :
    GetDataResult T × CacheState T :=
  match st.pendingFetch with
  | some fid => (.pending fid, st)
  | none =>
    if cacheExpired now st then
      (.pending st.fetchCount,
        { st with pendingFetch := some st.fetchCount,
                  fetchCount := st.fetchCount + 1 })
    else
      (.value st.data, st)

/-- Modelled from the spec: successful completion of the in-flight fetch at
time `t` with value `v` — store data and timestamp, clear the marker. -/
def resolveFetch {T : Type} (t : Int) (v : T) (st : CacheState T) :
    CacheState T :=
  { st with data := some v, lastUpdateTimestamp := t, pendingFetch := none }

/-- Modelled from the spec: fetch failure — clear the in-flight marker
without updating data or timestamp; the rejection goes to the awaiters of
that future only. -/
def rejectFetch {T : Type} (st : CacheState T) : CacheState T :=
  { st with pendingFetch := none }

/-- Runs `n` back-to-back `getData()` calls with no completion in between. -/
def getDataN {T : Type} (now : Int) :
    Nat → CacheState T → List (GetDataResult T) × CacheState T
  | 0, st => ([], st)
  | n + 1, st =>
    let r := getData now st
    let p := getDataN now n r.2
    (r.1 :: p.1, p.2)

theorem getData_of_pending {T : Type} (now : Int) (st : CacheState T)
    (fid : Nat) (h : st.pendingFetch = some fid) :
    getData now st = (.pending fid, st) := by
  simp [getData, h]

theorem getDataN_of_pending {T : Type} (now : Int) (n : Nat)
    (st : CacheState T) (fid : Nat) (h : st.pendingFetch = some fid) :
    getDataN now n st = (List.replicate n (.pending fid), st) := by
  induction n with
  | zero => simp [getDataN]
  | succ n ih =>
    simp [getDataN, getData_of_pending now st fid h, ih, List.replicate_succ]

/-! ### Scheduled publish handler: quota

`lib/sources/publish.js` is exercised by its tests but is not among the
sources at hand; `getUTCHourMinuteDate` and `getCurrentQuota` are modelled
from the spec (§4.5). -/

/-- Modelled from the spec: `toUTCTimestamp(hour, minute)` = today at 00:00
UTC + hour*3600000 + minute*60000 milliseconds
(`PublishSource.getUTCHourMinuteDate`, absent from the sources). -/
def getUTCHourMinuteDate (todayMidnightUTC hour minute : Int) : Int :=
  todayMidnightUTC + hour * 3600000 + minute * 60000

/-- Modelled from the spec: `PublishSource.getCurrentQuota` (absent from the
sources) — `Infinity` for an empty schedule, else a pass over the schedule
accumulating the entries whose resolved timestamp-for-today is `<= now` and
strictly greater than the handler's `lastUpdate`. -/
def getCurrentQuota (schedule : List (Int × Int))
    (todayMidnightUTC now lastUpdate : Int) : ℕ∞ :=
  if schedule.isEmpty then ⊤
  else
    ((schedule.foldl (fun acc e =>
      if getUTCHourMinuteDate todayMidnightUTC e.1 e.2 ≤ now ∧
          lastUpdate < getUTCHourMinuteDate todayMidnightUTC e.1 e.2
      then acc + 1 else acc) 0 : Nat) : ℕ∞)

theorem foldl_count_eq_countP {α : Type} (p : α → Prop) [DecidablePred p]
    (l : List α) :
    ∀ acc : Nat,
      l.foldl (fun acc e => if p e then acc + 1 else acc) acc =
        acc + l.countP (fun e => decide (p e)) := by
  induction l with
  | nil => intro acc; simp
  | cons a t ih =>
    intro acc
    by_cases hp : p a
    · rw [List.foldl_cons, if_pos hp, ih,
        List.countP_cons_of_pos _ _ (by simpa using hp)]
      omega
    · rw [List.foldl_cons, if_neg hp, ih,
        List.countP_cons_of_neg _ _ (by simpa using hp)]

/-! Concrete instances used by the witnesses. -/

/-- The `issues` handler's static declaration (`requiredConfig` inherited
from `Source`, `requiredColumns = ['target']`). -/
def issuesFactory : SourceFactory := ⟨["columns"], ["target"], []⟩

/-- A registry resolving only the `issues` type. -/
def exRegistry : String → Option SourceFactory := fun t =>
  if t = "issues" then some issuesFactory else none

/-- A valid `issues` entry. -/
def exGoodEntry : SourceEntry :=
  ⟨"issues", some [("target", "Foo")], ["type"]⟩

/-- An `issues` entry with the `columns` key present but without the
`target` role. -/
def exBadEntry : SourceEntry := ⟨"issues", some [], ["type"]⟩

/-- A column (id 1) that holds exactly issue number 1. -/
def exColYes : Column :=
  ⟨1, fun n => n == 1, fun _ => .ok none, fun _ => .ok ()⟩

/-- A column (id 2) that holds no issue. -/
def exColNo : Column :=
  ⟨2, fun _ => false, fun _ => .ok none, fun _ => .ok ()⟩

/-- A board with the two example columns. -/
def exBoard : Board :=
  ⟨[exColNo, exColYes], [("Foo", 2)],
    fun issue column => ⟨issue.number * 100 + column.id, .ok ()⟩⟩

/-- An issues-source instance over `exBoard` with `target` mapped to the
column named `Foo` and no managed columns. -/
def exSrc : IssuesSrc := ⟨exBoard, [("target", "Foo")], []⟩

/-- The example tracker item. -/
def exIssue : Issue := ⟨1, 42⟩

end ContentQueue

open ContentQueue

/-- Claim C10: `getMediaAndContent` throws exactly when the content holds more
than 4 markdown image references; otherwise it returns the trimmed content
with the references removed together with the extracted URLs in order of
appearance, and content with no reference yields the trimmed content and an
empty media list. -/
theorem claim_C10_getMediaAndContent (t : List Char) :
    ((∃ e, getMediaAndContent t = .error e) ↔ countRefs t > 4)
    ∧ (countRefs t ≤ 4 →
        getMediaAndContent t = .ok (jsTrim (scanRefs t).2, (scanRefs t).1))
    ∧ (countRefs t = 0 → getMediaAndContent t = .ok (jsTrim t, [])) := by
  cases hhr : hasRef t with
  | false =>
    have hsc : scanRefs t = ([], t) := scanRefs_of_hasRef_false hhr
    have hcount : countRefs t = 0 := by simp [countRefs, hsc]
    refine ⟨⟨?_, ?_⟩, ?_, ?_⟩
    · rintro ⟨e, he⟩
      simp [getMediaAndContent, hhr] at he
    · intro hgt; omega
    · intro _; simp [getMediaAndContent, hhr, hsc]
    · intro _; simp [getMediaAndContent, hhr]
  | true =>
    have hne : (scanRefs t).1 ≠ [] := scanRefs_ne_of_hasRef_true hhr
    refine ⟨⟨?_, ?_⟩, ?_, ?_⟩
    · rintro ⟨e, he⟩
      by_cases hlen : (scanRefs t).1.length > 4
      · simpa [countRefs] using hlen
      · simp [getMediaAndContent, hhr, hlen] at he
    · intro hgt
      refine ⟨"Can not upload more than 4 images per tweet", ?_⟩
      have hlen : (scanRefs t).1.length > 4 := by simpa [countRefs] using hgt
      simp [getMediaAndContent, hhr, hlen]
    · intro hle
      have hlen : ¬ (scanRefs t).1.length > 4 := by
        simp only [countRefs] at hle; omega
      simp [getMediaAndContent, hhr, hlen]
    · intro h0
      exact absurd (List.length_eq_zero.mp h0) hne

/-- Witness for C10 at a concrete content string with no image reference. -/
theorem claim_C10_witness :
    countRefs (" hello world ".toList) = 0
    ∧ getMediaAndContent (" hello world ".toList) =
        .ok ("hello world".toList, []) := by
  have hhr : hasRef (" hello world ".toList) = false := by decide
  have hsc := scanRefs_of_hasRef_false hhr
  have h0 : countRefs (" hello world ".toList) = 0 := by
    simp only [countRefs]
    rw [hsc]
    rfl
  refine ⟨h0, ?_⟩
  have := (claim_C10_getMediaAndContent (" hello world ".toList)).2.2 h0
  rw [this]
  rfl

/-- Claim C6: `handleCard` scans only columns outside the managed set,
returns the first such column containing the issue, and returns null when no
non-managed column contains it. -/
theorem claim_C6_handleCard (src : IssuesSrc) (issue : Issue) :
    handleCard src issue =
      (src.board.columns.filter
        (fun column => src.managed.all (fun c => c.id ≠ column.id))).find?
        (fun column => column.hasIssue issue.number)
    ∧ (handleCard src issue = none ↔
        ∀ column ∈ src.board.columns,
          (∀ c ∈ src.managed, c.id ≠ column.id) →
            column.hasIssue issue.number = false) := by
  have h1 := find?_and_filter
    (fun column => src.managed.all (fun c => c.id ≠ column.id))
    (fun column => column.hasIssue issue.number) src.board.columns
  refine ⟨h1, ?_⟩
  unfold handleCard
  rw [h1, List.find?_eq_none]
  constructor
  · intro h column hmem hman
    have := h column (List.mem_filter.mpr ⟨hmem, by
      simp only [List.all_eq_true, decide_eq_true_eq]
      intro c hc
      exact hman c hc⟩)
    simpa using this
  · intro h column hmem
    obtain ⟨hmem2, hall⟩ := List.mem_filter.mp hmem
    simp only [List.all_eq_true, decide_eq_true_eq] at hall
    simp [h column hmem2 hall]

/-- Claim C3: `addIssue` re-adds an issue already present in a column to that
same column regardless of closedness; an absent open issue goes to the
configured `target` column; an absent closed issue is not added. -/
theorem claim_C3_addIssue (src : IssuesSrc) (issue : Issue) :
    (∀ X, src.board.columns.filter
        (fun c => c.hasIssue issue.number) = [X] →
      ∀ b : Bool, addIssue src issue b = some (src.board.addCard issue X))
    ∧ ((∀ c ∈ src.board.columns, c.hasIssue issue.number = false) →
        ∀ tc, getColumn src "target" = some tc →
          addIssue src issue false = some (src.board.addCard issue tc))
    ∧ ((∀ c ∈ src.board.columns, c.hasIssue issue.number = false) →
        addIssue src issue true = none) := by
  refine ⟨?_, ?_, ?_⟩
  · intro X hX b
    have hfind : src.board.columns.find?
        (fun c => c.hasIssue issue.number) = some X :=
      find?_eq_head_of_filter _ _ _ hX
    unfold addIssue
    rw [hfind]
  · intro hnone tc htc
    have hfind : src.board.columns.find?
        (fun c => c.hasIssue issue.number) = none := by
      rw [List.find?_eq_none]
      intro x hx
      simp [hnone x hx]
    unfold addIssue
    rw [hfind]
    simp [htc]
  · intro hnone
    have hfind : src.board.columns.find?
        (fun c => c.hasIssue issue.number) = none := by
      rw [List.find?_eq_none]
      intro x hx
      simp [hnone x hx]
    unfold addIssue
    rw [hfind]
    simp

/-- Witness for C3: on the example board, issue 1 already sits in `exColYes`
(not the configured target `exColNo`), and `addIssue` re-adds it there. -/
theorem claim_C3_witness :
    addIssue exSrc exIssue false = some (exSrc.board.addCard exIssue exColYes) :=
  (claim_C3_addIssue exSrc exIssue).1 exColYes (by rfl) false

/-- Claim C9: `onClosedIssue` never propagates an exception: every path ends
in an observable outcome — not-found, removal, removal failure reported on
the card, or a logged (swallowed) exception. -/
theorem claim_C9_onClosedIssue (src : IssuesSrc) (issue : Issue) :
    (handleCard src issue = none → onClosedIssue src issue = .notInColumn)
    ∧ (∀ column e, handleCard src issue = some column →
        column.getCard issue.issueId = .error e →
        onClosedIssue src issue = .loggedError e)
    ∧ (∀ column card, handleCard src issue = some column →
        column.getCard issue.issueId = .ok (some card) →
        column.removeCard card = .ok () →
        onClosedIssue src issue = .removed card)
    ∧ (∀ column card e, handleCard src issue = some column →
        column.getCard issue.issueId = .ok (some card) →
        column.removeCard card = .error e →
        card.reportOutcome = .ok () →
        onClosedIssue src issue = .removalReported card e)
    ∧ (∀ column card e e2, handleCard src issue = some column →
        column.getCard issue.issueId = .ok (some card) →
        column.removeCard card = .error e →
        card.reportOutcome = .error e2 →
        onClosedIssue src issue = .loggedError e2) := by
  refine ⟨?_, ?_, ?_, ?_, ?_⟩
  · intro h
    simp only [onClosedIssue, h]
  · intro column e h1 h2
    simp only [onClosedIssue, h1, h2]
  · intro column card h1 h2 h3
    simp only [onClosedIssue, h1, h2, h3]
  · intro column card e h1 h2 h3 h4
    simp only [onClosedIssue, h1, h2, h3, h4]
  · intro column card e e2 h1 h2 h3 h4
    simp only [onClosedIssue, h1, h2, h3, h4]

/-- Witness for C9: a closed issue found in no column yields the
`notInColumn` outcome (and no exception). -/
theorem claim_C9_witness :
    onClosedIssue ⟨exBoard, [("target", "Foo")], []⟩ ⟨7, 8⟩ = .notInColumn :=
  (claim_C9_onClosedIssue ⟨exBoard, [("target", "Foo")], []⟩ ⟨7, 8⟩).1 rfl

/-- Claim C4: a source entry that fails validation makes the constructor
throw a `SourceLoadError` naming the source type and listing exactly the
missing required config keys; column roles are checked and reported only
when every required config key is present, and a missing `columns` key is
reported as a missing config key, never as missing columns. -/
theorem claim_C4_validation (registry : String → Option SourceFactory)
    (st : ManagerState) (s : SourceEntry) (F : SourceFactory)
    (hreg : registry s.type = some F)
    (hns : s.type ∉ NOT_SOURCES)
    (hcol : "columns" ∈ F.requiredConfig)
    (hfail : checkSourceConfig F s ≠ .ok true) :
    (missingConfig F.requiredConfig s ≠ [] →
      processSource registry st s =
        .error (.missingKeys s.type (missingConfig F.requiredConfig s)))
    ∧ (missingConfig F.requiredConfig s = [] →
        ∃ cs, s.columns = some cs
          ∧ missingColumnRoles F.requiredColumns cs ≠ []
          ∧ processSource registry st s =
              .error (.missingCols s.type
                (missingColumnRoles F.requiredColumns cs)))
    ∧ (s.columns = none →
        "columns" ∈ missingConfig F.requiredConfig s
        ∧ processSource registry st s =
            .error (.missingKeys s.type (missingConfig F.requiredConfig s))) := by
  have hmemMiss : ∀ c, c ∈ missingConfig F.requiredConfig s ↔
      c ∈ F.requiredConfig ∧ hasKey s c = false := by
    intro c
    simp [missingConfig, List.mem_filter]
  have partA : missingConfig F.requiredConfig s ≠ [] →
      processSource registry st s =
        .error (.missingKeys s.type (missingConfig F.requiredConfig s)) := by
    intro hne
    obtain ⟨c, hc⟩ := List.exists_mem_of_ne_nil _ hne
    obtain ⟨hcreq, hck⟩ := (hmemMiss c).mp hc
    have hreqne : F.requiredConfig ≠ [] := List.ne_nil_of_mem hcreq
    have hkeys : checkConfigKeys F.requiredConfig s = false := by
      unfold checkConfigKeys
      rw [Bool.or_eq_false_iff]
      constructor
      · cases hE : F.requiredConfig with
        | nil => exact absurd hE hreqne
        | cons a t => rfl
      · by_contra hx
        rw [Bool.not_eq_false] at hx
        have := List.all_eq_true.mp hx c hcreq
        rw [this] at hck
        exact Bool.noConfusion hck
    have hcsc : checkSourceConfig F s = .ok false := by
      simp [checkSourceConfig, hkeys]
    have hmissE : (missingConfig F.requiredConfig s).isEmpty = false := by
      cases hM : missingConfig F.requiredConfig s with
      | nil => exact absurd hM hne
      | cons a t => rfl
    simp [processSource, hns, hreg, hcsc, hmissE]
  have partB : missingConfig F.requiredConfig s = [] →
      ∃ cs, s.columns = some cs
        ∧ missingColumnRoles F.requiredColumns cs ≠ []
        ∧ processSource registry st s =
            .error (.missingCols s.type
              (missingColumnRoles F.requiredColumns cs)) := by
    intro hmissE
    have hall : ∀ c ∈ F.requiredConfig, hasKey s c = true := by
      intro c hc
      by_contra hK
      have hmem := (hmemMiss c).mpr ⟨hc, by
        cases hV : hasKey s c with
        | false => rfl
        | true => exact absurd hV hK⟩
      rw [hmissE] at hmem
      exact absurd hmem (List.not_mem_nil c)
    have hhk := hall _ hcol
    obtain ⟨cs, hcs⟩ : ∃ cs, s.columns = some cs := by
      rw [hasKey, if_pos rfl] at hhk
      exact Option.isSome_iff_exists.mp hhk
    have hkeys : checkConfigKeys F.requiredConfig s = true := by
      unfold checkConfigKeys
      rw [Bool.or_eq_true]
      exact Or.inr (List.all_eq_true.mpr hall)
    have hcsc : checkSourceConfig F s =
        checkColumnsArray F.requiredColumns s.columns := by
      simp [checkSourceConfig, hkeys]
    rw [hcs] at hcsc
    by_cases hRC : F.requiredColumns.isEmpty
    · refine absurd ?_ hfail
      rw [hcsc]
      unfold checkColumnsArray
      rw [if_pos hRC]
    · have hallc : F.requiredColumns.all
          (fun c => (cs.map Prod.fst).contains c) = false := by
        by_contra hx
        rw [Bool.not_eq_false] at hx
        refine absurd ?_ hfail
        rw [hcsc]
        unfold checkColumnsArray
        rw [if_neg hRC]
        show Except.ok (F.requiredColumns.all
          (fun c => (cs.map Prod.fst).contains c)) = Except.ok true
        rw [hx]
      have hcscv : checkSourceConfig F s = .ok false := by
        rw [hcsc]
        unfold checkColumnsArray
        rw [if_neg hRC]
        show Except.ok (F.requiredColumns.all
          (fun c => (cs.map Prod.fst).contains c)) = Except.ok false
        rw [hallc]
      have hmcr : missingColumnRoles F.requiredColumns cs ≠ [] := by
        rw [List.all_eq_false] at hallc
        obtain ⟨c, hcmem, hnc⟩ := hallc
        refine List.ne_nil_of_mem (a := c) ?_
        simp only [missingColumnRoles, List.mem_filter, decide_eq_true_eq]
        exact ⟨hcmem, hnc⟩
      exact ⟨cs, hcs, hmcr, by
        have hmissIsE : (missingConfig F.requiredConfig s).isEmpty = true := by
          rw [hmissE]; rfl
        simp [processSource, hns, hreg, hcscv, hmissIsE, hcs]⟩
  refine ⟨partA, partB, ?_⟩
  intro hnone
  have hck : hasKey s "columns" = false := by
    rw [hasKey, if_pos rfl, hnone]
    rfl
  have hcmem : "columns" ∈ missingConfig F.requiredConfig s :=
    (hmemMiss _).mpr ⟨hcol, hck⟩
  exact ⟨hcmem, partA (List.ne_nil_of_mem hcmem)⟩

theorem runSources_append (registry : String → Option SourceFactory)
    (st : ManagerState) (l1 l2 : List SourceEntry) :
    runSources registry st (l1 ++ l2) =
      match runSources registry st l1 with
      | .ok st1 => runSources registry st1 l2
      | .error p => .error p := by
  induction l1 generalizing st with
  | nil => simp [runSources]
  | cons a t ih =>
    simp only [List.cons_append, runSources]
    cases processSource registry st a with
    | ok st2 => simp only []; exact ih st2
    | error e => simp only []

theorem processSource_ok_sources (registry : String → Option SourceFactory)
    (st : ManagerState) (s : SourceEntry) (st2 : ManagerState)
    (h : processSource registry st s = .ok st2) :
    st2.sources = st.sources ++ [s] := by
  unfold processSource at h
  split at h
  · exact Except.noConfusion h
  · split at h
    · exact Except.noConfusion h
    · split at h
      · exact Except.noConfusion h
      · split at h
        · injection h with h2
          rw [← h2]
        · split at h
          · exact Except.noConfusion h
          · injection h with h2
            rw [← h2]
      · repeat' split at h
        all_goals exact Except.noConfusion h

theorem runSources_ok_sources (registry : String → Option SourceFactory) :
    ∀ (l : List SourceEntry) (st st2 : ManagerState),
      runSources registry st l = .ok st2 →
      st2.sources = st.sources ++ l := by
  intro l
  induction l with
  | nil =>
    intro st st2 h
    simp only [runSources] at h
    injection h with h2
    rw [← h2]
    simp
  | cons a t ih =>
    intro st st2 h
    simp only [runSources] at h
    cases hp : processSource registry st a with
    | ok stm =>
      rw [hp] at h
      have := ih stm st2 h
      rw [this, processSource_ok_sources registry st a stm hp]
      simp
    | error e =>
      rw [hp] at h
      exact Except.noConfusion h

/-- Claim C8: registry construction is fail-fast but not atomic — the first
invalid entry aborts the constructor with a propagated error, while the
handlers already instantiated from the preceding valid prefix (recorded in
the state the error carries) are not rolled back, and later entries are
never processed. -/
theorem claim_C8_fail_fast (registry : String → Option SourceFactory)
    (pre rest : List SourceEntry) (bad : SourceEntry)
    (stP : ManagerState) (e : SMError)
    (hpre : runSources registry ⟨[], []⟩ pre = .ok stP)
    (hbad : processSource registry stP bad = .error e) :
    sourceManagerCtor registry (pre ++ bad :: rest) = .error (e, stP)
    ∧ stP.sources = pre := by
  constructor
  · unfold sourceManagerCtor
    rw [runSources_append, hpre]
    simp only [runSources, hbad]
  · have := runSources_ok_sources registry pre ⟨[], []⟩ stP hpre
    simpa using this

/-- Witness for C8: a valid `issues` entry followed by one missing the
`target` role; construction fails on the second entry with the first
handler still instantiated. -/
theorem claim_C8_witness :
    sourceManagerCtor exRegistry ([exGoodEntry] ++ exBadEntry :: []) =
      .error (.missingCols "issues" ["target"], ⟨[exGoodEntry], []⟩)
    ∧ (⟨[exGoodEntry], []⟩ : ManagerState).sources = [exGoodEntry] :=
  claim_C8_fail_fast exRegistry [exGoodEntry] [] exBadEntry
    ⟨[exGoodEntry], []⟩ (.missingCols "issues" ["target"]) rfl rfl

/-- Witness for C4: an `issues` entry whose `columns` object lacks the
`target` role fails naming `target` as the missing column. -/
theorem claim_C4_witness :
    processSource exRegistry ⟨[], []⟩ exBadEntry =
      .error (.missingCols "issues" ["target"]) := by
  have h := (claim_C4_validation exRegistry ⟨[], []⟩ exBadEntry issuesFactory
    rfl (by decide) (by simp [issuesFactory])
    (by intro hx; exact Bool.noConfusion (Except.ok.inj hx))).2.1 rfl
  obtain ⟨cs, hcs, hne, hres⟩ := h
  have hcs2 : cs = [] := by
    have : (some [] : Option (List (String × String))) = some cs := hcs
    injection this with h2
    exact h2.symm
  subst hcs2
  exact hres

/-- Claim C1: single-flight — with a fetch outstanding, every `getData()`
call returns that same pending future and no new fetch is invoked; from an
expired cache, one call starts the fetch and `n` further calls while it is
in flight share its future, for one fetch invocation in total. -/
theorem claim_C1_single_flight {T : Type} (now : Int) (st0 : CacheState T)
    (n : Nat) (hpend : st0.pendingFetch = none)
    (hexp : cacheExpired now st0 = true) :
    (getData now st0).1 = .pending st0.fetchCount
    ∧ (getData now st0).2.fetchCount = st0.fetchCount + 1
    ∧ (getData now st0).2.pendingFetch = some st0.fetchCount
    ∧ getDataN now n (getData now st0).2 =
        (List.replicate n (.pending st0.fetchCount), (getData now st0).2) := by
  have hstep : getData now st0 =
      (.pending st0.fetchCount,
        { st0 with pendingFetch := some st0.fetchCount,
                   fetchCount := st0.fetchCount + 1 }) := by
    simp [getData, hpend, hexp]
  refine ⟨by rw [hstep], by rw [hstep], by rw [hstep], ?_⟩
  exact getDataN_of_pending now n _ st0.fetchCount (by rw [hstep])

/-- Witness for C1: a fresh cache, one starting call and two sharing calls. -/
theorem claim_C1_witness :
    (getData 10000 (initCache Nat 3000)).1 = .pending 0
    ∧ (getData 10000 (initCache Nat 3000)).2.fetchCount = 1
    ∧ (getData 10000 (initCache Nat 3000)).2.pendingFetch = some 0
    ∧ getDataN 10000 2 (getData 10000 (initCache Nat 3000)).2 =
        (List.replicate 2 (.pending 0), (getData 10000 (initCache Nat 3000)).2) :=
  claim_C1_single_flight 10000 (initCache Nat 3000) 2 rfl rfl

/-- Claim C5: a rejected fetch clears the in-flight marker without updating
data or timestamp, and the next `getData()` invokes the fetch function
again: a rejecting then a resolving fetch make exactly two invocations,
with the second one succeeding. -/
theorem claim_C5_retry_after_failure {T : Type} (now now2 t : Int)
    (st0 : CacheState T) (v : T) (hpend : st0.pendingFetch = none)
    (hdata : st0.data = none) :
    (getData now st0).1 = .pending st0.fetchCount
    ∧ (getData now st0).2.fetchCount = st0.fetchCount + 1
    ∧ (rejectFetch (getData now st0).2).data = st0.data
    ∧ (rejectFetch (getData now st0).2).lastUpdateTimestamp =
        st0.lastUpdateTimestamp
    ∧ (rejectFetch (getData now st0).2).pendingFetch = none
    ∧ (getData now2 (rejectFetch (getData now st0).2)).1 =
        .pending (st0.fetchCount + 1)
    ∧ (getData now2 (rejectFetch (getData now st0).2)).2.fetchCount =
        st0.fetchCount + 2
    ∧ (resolveFetch t v
        (getData now2 (rejectFetch (getData now st0).2)).2).data = some v := by
  have hexp : cacheExpired now st0 = true := by
    simp [cacheExpired, hdata]
  have hstep : getData now st0 =
      (.pending st0.fetchCount,
        { st0 with pendingFetch := some st0.fetchCount,
                   fetchCount := st0.fetchCount + 1 }) := by
    simp [getData, hpend, hexp]
  rw [hstep]
  have hexp2 : ∀ st : CacheState T, st.data = none →
      cacheExpired now2 st = true := by
    intro st h
    simp [cacheExpired, h]
  refine ⟨rfl, rfl, ?_, rfl, rfl, ?_, ?_, ?_⟩
  · simp [rejectFetch, hdata]
  · simp [getData, rejectFetch, hexp2, hdata, cacheExpired]
  · simp [getData, rejectFetch, hexp2, hdata, cacheExpired]
  · simp [getData, rejectFetch, hexp2, hdata, cacheExpired, resolveFetch]

/-- Witness for C5: a fresh cache, one rejected then one resolved fetch. -/
theorem claim_C5_witness :
    (getData 10000 (initCache Nat 3000)).1 = .pending 0
    ∧ (getData 10000 (initCache Nat 3000)).2.fetchCount = 1
    ∧ (rejectFetch (getData 10000 (initCache Nat 3000)).2).data = none
    ∧ (rejectFetch (getData 10000 (initCache Nat 3000)).2).lastUpdateTimestamp = 0
    ∧ (rejectFetch (getData 10000 (initCache Nat 3000)).2).pendingFetch = none
    ∧ (getData 10500 (rejectFetch (getData 10000 (initCache Nat 3000)).2)).1 =
        .pending 1
    ∧ (getData 10500
        (rejectFetch (getData 10000 (initCache Nat 3000)).2)).2.fetchCount = 2
    ∧ (resolveFetch 10600 7 (getData 10500
        (rejectFetch (getData 10000 (initCache Nat 3000)).2)).2).data = some 7 :=
  claim_C5_retry_after_failure 10000 10500 10600 (initCache Nat 3000) 7 rfl rfl

/-- Claim C7: `cacheExpired` is true whenever no fetch has ever completed;
after a successful fetch at time `t` it is false exactly while
`now - t < cacheTime` and true exactly once `now - t >= cacheTime`. -/
theorem claim_C7_cache_expiry {T : Type} (now t : Int) (st : CacheState T)
    (v : T) :
    (st.data = none → cacheExpired now st = true)
    ∧ (now - t < st.cacheTime →
        cacheExpired now (resolveFetch t v st) = false)
    ∧ (now - t ≥ st.cacheTime →
        cacheExpired now (resolveFetch t v st) = true) := by
  refine ⟨?_, ?_, ?_⟩
  · intro h
    simp [cacheExpired, h]
  · intro h
    simp [cacheExpired, resolveFetch]
    omega
  · intro h
    simp [cacheExpired, resolveFetch]
    omega

/-- Witness for C7: `cacheTime = 3000` — expired before any fetch, fresh
just after a fetch, expired again 3000ms later. -/
theorem claim_C7_witness :
    cacheExpired 10000 (initCache Nat 3000) = true
    ∧ cacheExpired 12000 (resolveFetch 10000 5 (initCache Nat 3000)) = false
    ∧ cacheExpired 13000 (resolveFetch 10000 5 (initCache Nat 3000)) = true :=
  ⟨(claim_C7_cache_expiry 10000 10000 (initCache Nat 3000) 5).1 rfl,
   (claim_C7_cache_expiry 12000 10000 (initCache Nat 3000) 5).2.1 (by decide),
   (claim_C7_cache_expiry 13000 10000 (initCache Nat 3000) 5).2.2 (by decide)⟩

/-- Claim C2: `getCurrentQuota` is `Infinity` on an empty schedule;
otherwise it equals the number of schedule entries whose resolved
timestamp on the current UTC day lies in `(lastUpdate, now]`. -/
theorem claim_C2_quota (schedule : List (Int × Int))
    (todayMidnightUTC now lastUpdate : Int) :
    (schedule = [] →
      getCurrentQuota schedule todayMidnightUTC now lastUpdate = ⊤)
    ∧ (schedule ≠ [] →
        getCurrentQuota schedule todayMidnightUTC now lastUpdate =
          ((schedule.countP (fun e =>
            getUTCHourMinuteDate todayMidnightUTC e.1 e.2 ≤ now ∧
            lastUpdate < getUTCHourMinuteDate todayMidnightUTC e.1 e.2) : Nat)
              : ℕ∞)) := by
  constructor
  · intro h
    subst h
    simp [getCurrentQuota]
  · intro h
    have hE : schedule.isEmpty = false := by
      cases hM : schedule with
      | nil => exact absurd hM h
      | cons a l => rfl
    unfold getCurrentQuota
    rw [hE]
    simp only [Bool.false_eq_true, if_false]
    rw [foldl_count_eq_countP]
    simp

/-- Witness for C2: the spec's scenario — entries at `now+1min`, `now+1h`,
`now-1h` with `lastUpdate` before all of them; after the clock advances past
the first two, the quota is 2; the empty schedule is unthrottled. -/
theorem claim_C2_witness :
    getCurrentQuota [] 0 3700001 0 = ⊤
    ∧ getCurrentQuota [(0, 1), (1, 0), (-1, 0)] 0 3700001 0 = (2 : ℕ∞) := by
  refine ⟨(claim_C2_quota [] 0 3700001 0).1 rfl, ?_⟩
  have h := (claim_C2_quota [(0, 1), (1, 0), (-1, 0)] 0 3700001 0).2
    (by simp)
  rw [h]
  rfl

/-- Witness for C6: on the example board the issue is found in `exColYes`. -/
theorem claim_C6_witness :
    handleCard exSrc exIssue = some exColYes := by
  have h := (claim_C6_handleCard exSrc exIssue).1
  rw [h]
  rfl
